import Mathlib

/-!
Verification development for the LiquidCats/jsonrpc Go client.

The repository is a JSON-RPC 2.0 HTTP client.  The sources contain several
revisions of the same small library; the embedding below translates, file by
file, the data model (`data.go`, `client.go`), the request builders
(`data.go` `CreateRequest`, `request.go` `NewRequest`), the option helpers
(`part_001` `UseClient`/`SetHeader`/`UseContext`, `part_006`
`WithContext`/`WithContentType`/`WithHeader`), the preparer (`part_006`
`Prepare`) and the executor (`execute.go` / `executor.go` / `part_001`
`Execute`).

External collaborators (the sonic JSON codec, the Go HTTP stack) are treated
as opaque capabilities: every call the code makes into them is a field of an
environment record, so a theorem quantifying over the environment quantifies
over every behaviour those collaborators can exhibit.  Go's
`(value, error)` returns are kept as pairs of options, so "nil result
alongside an error" is expressible rather than excluded by the return type.
Mutation of the process-wide default HTTP client is modelled by explicit
state passing of a `World` record.
-/

namespace Jsonrpc

/-- A JSON value: the wire format both envelopes are serialized to.
Numbers are restricted to integers, which covers every value the embedded
code puts on the wire (ids, error codes). -/
inductive Json where
  | null
  | bool (b : Bool)
  | num (n : Int)
  | str (s : String)
  | arr (elems : List Json)
  | obj (fields : List (String × Json))

/-- `RPCError` from `data.go:17-20`: a protocol-level (server-reported)
error, a `(code, message)` pair. -/
structure RPCError where
  code : Int
  message : String
deriving DecidableEq, Repr

/-- `RPCError.Error` from `data.go:22-24`:
`fmt.Sprintf("jsonrpc error: code=%d, message=%s", e.Code, e.Message)`. -/
def RPCError.Error (e : RPCError) : String :=
  "jsonrpc error: code=" ++ toString e.code ++ ", message=" ++ e.message

/-- `RPCResponse[D]` from `data.go:10-15`: the inbound envelope.  `Error`
is a nullable pointer, hence an `Option`; `ID` is declared `any`, hence an
arbitrary JSON value. -/
structure RPCResponse (D : Type) where
  jsonrpc : String
  result : D
  error : Option RPCError
  id : Json

/-- `RPCRequest` from `data.go:26-31`: the outbound envelope.  `Params` is
declared `any` (an arbitrary serializable value), modelled as `Json`;
`ID` is `int64`. -/
structure RPCRequest where
  method : String
  params : Json
  id : Int
  jsonrpc : String

/-- `Version` from `data.go:8` / `request.go:8`. -/
def Version : String := "2.0"

/-- `CreateRequest` from `data.go:33-40`.  The Go code reads
`time.Now().UnixMilli()` for the id; the clock reading is the explicit
argument `now`. -/
def CreateRequest (now : Int) (method : String) (params : Json) : RPCRequest :=
  { id := now
    method := method
    jsonrpc := Version
    params := params }

/-- `rpcRequest[Params, Resp]` from `request.go:10-15`: the later revision
of the outbound envelope, whose `ID` is `any` (it is built as a decimal
string of `UnixNano`). -/
structure rpcRequest where
  method : String
  params : Json
  id : Json
  jsonrpc : String

/-- `RPCOpt` from `request.go:17`: a builder-time mutator. -/
def RPCOpt : Type := rpcRequest → rpcRequest

/-- `WithRPCVersion` from `request.go:19-23`. -/
def WithRPCVersion (version : String) : RPCOpt :=
  fun req => { req with jsonrpc := version }

/-- `WithRPCid` from `request.go:25-29`. -/
def WithRPCid (id : Json) : RPCOpt :=
  fun req => { req with id := id }

/-- `NewRequest` from `request.go:31-44`.  The Go code reads
`strconv.FormatInt(time.Now().UnixNano(), 10)`; the nanosecond clock
reading is the explicit argument `nowNano`. -/
def NewRequest (nowNano : Int) (method : String) (params : Json)
    (opts : List RPCOpt) : rpcRequest :=
  opts.foldl (fun req opt => opt req)
    { id := Json.str (toString nowNano)
      method := method
      jsonrpc := Version
      params := params }

/-! ## Wire encoding of the request envelope

The JSON library (sonic) is an external collaborator; what the core relies
on is that it is a conforming JSON struct codec driven by the field tags of
`RPCRequest` (`method`, `params,omitempty`, `id`, `jsonrpc`).  The encoder
and decoder below spell out exactly that contract: encoding emits one JSON
object with those keys (omitting `params` when it is the empty `any`
value, i.e. a nil interface), decoding reads the keys back, leaving the
Go zero value for an absent key and failing on a type mismatch. -/

/-- Field lookup in a decoded JSON object. -/
def jsonLookup (fields : List (String × Json)) (key : String) : Option Json :=
  (fields.find? (fun f => f.1 == key)).map (fun f => f.2)

/-- Encoding of `RPCRequest` per its JSON field tags
(`data.go:26-31`): `method`, `params,omitempty`, `id`, `jsonrpc`.
`omitempty` on an `any`-typed field omits it exactly when the value is the
nil interface, i.e. JSON `null`. -/
def encodeRPCRequest (r : RPCRequest) : Json :=
  Json.obj ([("method", Json.str r.method)]
    ++ (match r.params with
        | Json.null => []
        | p => [("params", p)])
    ++ [("id", Json.num r.id), ("jsonrpc", Json.str r.jsonrpc)])

/-- Decoding of a JSON value into `RPCRequest` per its field tags: a
non-object fails, an absent key leaves the field's Go zero value, a key of
the wrong type fails. -/
def decodeRPCRequest (j : Json) : Option RPCRequest :=
  match j with
  | Json.obj fields => do
    let m ← match jsonLookup fields "method" with
            | none => some ""
            | some (Json.str s) => some s
            | some _ => none
    let i ← match jsonLookup fields "id" with
            | none => some 0
            | some (Json.num n) => some n
            | some _ => none
    let v ← match jsonLookup fields "jsonrpc" with
            | none => some ""
            | some (Json.str s) => some s
            | some _ => none
    some { method := m
           params := (jsonLookup fields "params").getD Json.null
           id := i
           jsonrpc := v }
  | _ => none

/-! ## HTTP model

The Go HTTP stack is an external collaborator ("send request, receive
response with status + body").  The embedding keeps only the parts of
`http.Request`, `http.Response` and `http.Client` the client code reads or
writes.  A `context.Context` is an opaque token (`Nat`); `ctxBackground`
stands for `context.Background()`.  `Header.Set` replaces any previous
value for the key. -/

/-- The observable fields of Go's `http.Request` that this code touches:
method, URL, body bytes, `ContentLength`, headers, and the attached
context. -/
structure HttpRequest where
  method : String
  url : String
  body : String
  contentLength : Int
  headers : List (String × String)
  ctx : Nat
deriving DecidableEq, Repr

/-- `context.Background()`. -/
def ctxBackground : Nat := 0

/-- `Header.Set(key, value)`: replaces any existing value for the key. -/
def headerSet (hs : List (String × String)) (key value : String) :
    List (String × String) :=
  (key, value) :: hs.filter (fun p => ¬(p.1 = key))

/-- `Header.Get(key)`. -/
def headerGet (hs : List (String × String)) (key : String) : Option String :=
  (hs.find? (fun p => p.1 == key)).map (fun p => p.2)

/-- The observable fields of Go's `http.Response` that this code reads:
status code and body bytes. -/
structure HttpResponse where
  statusCode : Int
  body : String
deriving DecidableEq, Repr

/-- The observable fields of Go's `http.Client` that this code touches.
`tag` is the identity of the client value (which `*http.Client` it is);
`timeout` is the `Timeout` field client-scoped options mutate. -/
structure HttpClient where
  tag : Nat
  timeout : Int
deriving DecidableEq, Repr

/-- Process-wide mutable state: the shared default HTTP client
(`http.DefaultClient` in `execute.go:42`, the package-level
`defaultHTTPClient` of `part_004` in `executor.go:36` / `part_001:56`).
Every `Execute` call reads it through a pointer, so mutations through that
pointer update this state. -/
structure World where
  defaultClient : HttpClient
deriving DecidableEq, Repr

/-! ## Option system (`execute.go:20-22`, `part_001:20-36`) -/

/-- One element of the `opts ...any` list, as dispatched by the type
switch in `Execute` (`execute.go:43-50`, `part_001:57-64`): either a
request-scoped mutator or a client-scoped mutator.  A Go mutator receives
a pointer; its observable effect on the pointed-to value is the function
recorded here. -/
inductive ExecOpt where
  | reqOpt (f : HttpRequest → HttpRequest)
  | clientOpt (g : HttpClient → HttpClient)

/-- `UseClient` from `part_001:20-24`.  The Go body is
`func(in *http.Client) { in = cli }`: the assignment rebinds the local
parameter `in` (a dead store) and never writes through the pointer, so the
observable effect on the pointed-to client is the identity. -/
def UseClient (cli : HttpClient) : ExecOpt :=
  ExecOpt.clientOpt (fun inClient => inClient)

/-- `SetHeader` from `part_001:26-30`: `in.Header.Set(key, value)` writes
through the pointer. -/
def SetHeader (key value : String) : ExecOpt :=
  ExecOpt.reqOpt (fun inReq => { inReq with headers := headerSet inReq.headers key value })

/-- `UseContext` from `part_001:32-36`.  The Go body is
`func(in *http.Request) { in = in.WithContext(ctx) }`: `WithContext`
returns a shallow copy and the assignment rebinds the local parameter `in`
(a dead store), so the observable effect on the pointed-to request is the
identity — the request keeps its original context. -/
def UseContext (ctx : Nat) : ExecOpt :=
  ExecOpt.reqOpt (fun inReq => inReq)

/-- The option-application loop of `Execute` (`execute.go:43-50`,
`part_001:57-64`): options are applied in the order supplied; a
request-scoped option mutates the outgoing request, a client-scoped option
mutates the client behind the pointer `cl` (the shared default). -/
def applyOpts : List ExecOpt → HttpRequest → HttpClient →
    HttpRequest × HttpClient
  | [], req, cl => (req, cl)
  | ExecOpt.reqOpt f :: rest, req, cl => applyOpts rest (f req) cl
  | ExecOpt.clientOpt g :: rest, req, cl => applyOpts rest req (g cl)

/-! ## Executor (`execute.go:24-79`; same pipeline in `executor.go:13-61`
and `part_001:38-90`, which differ only in context plumbing and decoder
configuration) -/

/-- Errors `Execute` can return, with how each is surfaced:
`wrapped stage cause` is `eris.Wrap(cause, stage)`; `httpStatus code` is
`eris.Errorf("http status %d", code)`; `rpc e` is the protocol error
value itself, returned unwrapped (`execute.go:74-76`). -/
inductive ExecError where
  | wrapped (stage cause : String)
  | httpStatus (code : Int)
  | rpc (e : RPCError)
deriving DecidableEq, Repr

/-- The user-visible message of each error: `eris.Wrap(cause, stage)`
formats as `stage ++ ": " ++ cause`; a protocol error formats through
`RPCError.Error`. -/
def ExecError.message : ExecError → String
  | ExecError.wrapped stage cause => stage ++ ": " ++ cause
  | ExecError.httpStatus code => "http status " ++ toString code
  | ExecError.rpc e => e.Error

/-- The outcomes of every call `Execute` makes into its external
collaborators:
`encodeResult` — `encoder.Encode(rpc)` into the pooled buffer, producing
the body bytes (`execute.go:29-32`);
`newRequestResult` — whether `http.NewRequestWithContext` accepts the URL
(`execute.go:34-37`);
`transport` — `cl.Do(req)` (`execute.go:52`), a function of the client
and the request actually handed to it;
`decodeBody` — `dec.Decode(&result)` on the response body
(`execute.go:65-72`). -/
structure ExecEnv (R : Type) where
  encodeResult : Except String String
  newRequestResult : Except String Unit
  transport : HttpClient → HttpRequest → Except String HttpResponse
  decodeBody : String → Except String (RPCResponse R)

/-- The transmission unit `Execute` builds before applying options
(`execute.go:34-40`): POST to `url`, the encoded body, an explicit
`ContentLength` equal to the body length, and base headers
`Content-Type: application/json` and `Accept: application/json`. -/
def buildExecRequest (ctx : Nat) (url body : String) : HttpRequest :=
  { method := "POST"
    url := url
    body := body
    contentLength := (body.length : Int)
    headers := headerSet (headerSet [] "Content-Type" "application/json")
      "Accept" "application/json"
    ctx := ctx }

/-- `Execute` from `execute.go:24-79`, as explicit state passing over the
`World`.  Returns the world after the call paired with the Go return
value `(*Resp, error)` as `Option R × Option ExecError`.  Steps, in the
source's order: encode the envelope (wrap `marshal request` on failure);
build the request (wrap `prepare req`); set `ContentLength` and base
headers; apply options in order, client-scoped ones mutating the shared
default client (`cl := http.DefaultClient`); send (`wrap execute req`);
reject a status outside [200, 299] with `http status <code>` after
draining (never decoding) the body; decode (wrap `decode response`);
return the protocol error unwrapped if the `Error` field is populated,
else a pointer to the decoded result. -/
def Execute {R : Type} (env : ExecEnv R) (ctx : Nat) (url : String)
    (opts : List ExecOpt) (world : World) :
    World × Option R × Option ExecError :=
  match env.encodeResult with
  | Except.error e => (world, none, some (ExecError.wrapped "marshal request" e))
  | Except.ok body =>
    match env.newRequestResult with
    | Except.error e => (world, none, some (ExecError.wrapped "prepare req" e))
    | Except.ok _ =>
      let built := applyOpts opts (buildExecRequest ctx url body) world.defaultClient
      let world1 : World := { world with defaultClient := built.2 }
      match env.transport built.2 built.1 with
      | Except.error e => (world1, none, some (ExecError.wrapped "execute req" e))
      | Except.ok resp =>
        if resp.statusCode < 200 ∨ resp.statusCode > 299 then
          (world1, none, some (ExecError.httpStatus resp.statusCode))
        else
          match env.decodeBody resp.body with
          | Except.error e =>
            (world1, none, some (ExecError.wrapped "decode response" e))
          | Except.ok result =>
            match result.error with
            | some rpcErr => (world1, none, some (ExecError.rpc rpcErr))
            | none => (world1, some result.result, none)

/-! ## Preparer (`part_006`) -/

/-- `PrepareOpt` from `part_006:12`: a request-scoped mutator applied by
`Prepare`.  The Go mutator receives `*http.Request`; its observable effect
on the pointed-to request is the function recorded here. -/
def PrepareOpt : Type := HttpRequest → HttpRequest

/-- `WithContext` from `part_006:14-18`: `*r = *r.WithContext(ctx)` writes
the copy back through the pointer, so the request's context really is
replaced. -/
def WithContext (ctx : Nat) : PrepareOpt :=
  fun r => { r with ctx := ctx }

/-- `WithContentType` from `part_006:20-24`. -/
def WithContentType (contentType : String) : PrepareOpt :=
  fun r => { r with headers := headerSet r.headers "Content-Type" contentType }

/-- `WithHeader` from `part_006:26-30`. -/
def WithHeader (key value : String) : PrepareOpt :=
  fun r => { r with headers := headerSet r.headers key value }

/-- The `praparedRPCRequest` struct as `Prepare` (`part_006:32-53`)
populates it: either a ready transmission unit in `internal`, or a
terminal error in `err` (with `internal` left nil).  Go errors are kept as
their message strings. -/
structure praparedRPCRequest where
  internal : Option HttpRequest
  err : Option String
deriving DecidableEq, Repr

/-- The outcomes of the external calls `Prepare` makes:
`encodeResult` — `encoder.Encode(r)` into the buffer, producing the body
bytes (`part_006:35-39`);
`newRequestResult` — whether `http.NewRequest` accepts the URL
(`part_006:41-44`). -/
structure PrepareEnv where
  encodeResult : Except String String
  newRequestResult : Except String Unit

/-- `Prepare` from `part_006:32-53`: encode the envelope (an encoding
failure is captured as the terminal error `encode request data: _`, not
raised); build a POST to `url` (`http.NewRequest` with a `bytes.Buffer`
body sets `ContentLength` to the buffer length; a URL failure is captured
as `create http request: _`); set the base header
`Content-Type: application/json`; apply the request-scoped options in
order; return the prepared call. -/
def Prepare (env : PrepareEnv) (url : String) (opts : List PrepareOpt) :
    praparedRPCRequest :=
  match env.encodeResult with
  | Except.error e =>
    { internal := none, err := some ("encode request data: " ++ e) }
  | Except.ok body =>
    match env.newRequestResult with
    | Except.error e =>
      { internal := none, err := some ("create http request: " ++ e) }
    | Except.ok _ =>
      let req : HttpRequest :=
        { method := "POST"
          url := url
          body := body
          contentLength := (body.length : Int)
          headers := headerSet [] "Content-Type" "application/json"
          ctx := ctxBackground }
      { internal := some (opts.foldl (fun r opt => opt r) req), err := none }

/-- The outcomes of the external calls the prepared-call executor makes:
the transport send and the body decode. -/
structure PraparedExecEnv (R : Type) where
  transport : HttpClient → HttpRequest → Except String HttpResponse
  decodeBody : String → Except String (RPCResponse R)

/-- Modelled from the spec: the `Execute` method of `praparedRPCRequest`
is not among the sources — only `Prepare` (`part_006`), its tests and the
README mention it.  Per spec §4.5: if the prepared call carries a terminal
error, propagate it immediately wrapped with the stage marker
`execute prepared request`, sending nothing (the output in that branch
does not consult `env`); otherwise select the caller-supplied client if
given, else the shared default, send, classify the status, decode, and
extract the result or the protocol error.  The `err = none`,
`internal = none` branch is never produced by `Prepare`; it is mapped to a
wrapped stage error for totality. -/
def praparedExecute {R : Type} (p : praparedRPCRequest)
    (client : Option HttpClient) (world : World) (env : PraparedExecEnv R) :
    Option R × Option ExecError :=
  match p.err with
  | some e => (none, some (ExecError.wrapped "execute prepared request" e))
  | none =>
    match p.internal with
    | none =>
      (none, some (ExecError.wrapped "execute prepared request" "nil request"))
    | some req =>
      let cl := client.getD world.defaultClient
      match env.transport cl req with
      | Except.error e => (none, some (ExecError.wrapped "execute request" e))
      | Except.ok resp =>
        if resp.statusCode < 200 ∨ resp.statusCode > 299 then
          (none, some (ExecError.httpStatus resp.statusCode))
        else
          match env.decodeBody resp.body with
          | Except.error e =>
            (none, some (ExecError.wrapped "decode response" e))
          | Except.ok result =>
            match result.error with
            | some rpcErr => (none, some (ExecError.rpc rpcErr))
            | none => (some result.result, none)

/-! ## Decimal digit strings

`NewRequest` derives its id as the decimal string of the nanosecond clock
reading (`strconv.FormatInt(..., 10)`, embedded as `toString : Int →
String`, which is core's `Nat.toDigits`-based printer).  To relate
distinctness of such ids to distinctness of the readings, the two
definitions below give the value a decimal digit string denotes; the
lemmas following them prove the printer injective. -/

/-- The numeric value of a decimal digit character. -/
def digitVal (c : Char) : Nat := c.toNat - '0'.toNat

/-- The number denoted by a list of decimal digit characters, most
significant first, on top of an already-read prefix value `a`. -/
def decodeDigits (a : Nat) (l : List Char) : Nat :=
  l.foldl (fun x c => x * 10 + digitVal c) a

/-! ## Helper lemmas -/

theorem digitVal_digitChar : ∀ d : Nat, d < 10 →
    digitVal (Nat.digitChar d) = d := by decide

theorem digitChar_ne_dash : ∀ d : Nat, d < 10 →
    Nat.digitChar d ≠ '-' := by decide

theorem toDigitsCore_shift (b : Nat) :
    ∀ (f n : Nat) (ds : List Char),
      Nat.toDigitsCore b f n ds = Nat.toDigitsCore b f n [] ++ ds := by
  intro f
  induction f with
  | zero => intro n ds; simp [Nat.toDigitsCore]
  | succ g ih =>
    intro n ds
    simp only [Nat.toDigitsCore]
    by_cases h0 : n / b = 0
    · rw [if_pos h0, if_pos h0]
      simp
    · rw [if_neg h0, if_neg h0]
      rw [ih (n / b) (Nat.digitChar (n % b) :: ds),
        ih (n / b) [Nat.digitChar (n % b)]]
      simp

theorem toDigitsCore_mem :
    ∀ (f n : Nat) (ds : List Char) (c : Char),
      c ∈ Nat.toDigitsCore 10 f n ds →
      c ∈ ds ∨ ∃ d, d < 10 ∧ c = Nat.digitChar d := by
  intro f
  induction f with
  | zero =>
    intro n ds c hc
    simp only [Nat.toDigitsCore] at hc
    exact Or.inl hc
  | succ g ih =>
    intro n ds c hc
    simp only [Nat.toDigitsCore] at hc
    by_cases h0 : n / 10 = 0
    · rw [if_pos h0] at hc
      rcases List.mem_cons.mp hc with h1 | h1
      · exact Or.inr ⟨n % 10, Nat.mod_lt n (by norm_num), h1⟩
      · exact Or.inl h1
    · rw [if_neg h0] at hc
      rcases ih (n / 10) (Nat.digitChar (n % 10) :: ds) c hc with h1 | h1
      · rcases List.mem_cons.mp h1 with h2 | h2
        · exact Or.inr ⟨n % 10, Nat.mod_lt n (by norm_num), h2⟩
        · exact Or.inl h2
      · exact Or.inr h1

theorem decodeDigits_toDigitsCore :
    ∀ (f n a : Nat), n < f →
      decodeDigits a (Nat.toDigitsCore 10 f n [])
        = a * 10 ^ (Nat.toDigitsCore 10 f n []).length + n := by
  intro f
  induction f with
  | zero => intro n a h; omega
  | succ g ih =>
    intro n a h
    simp only [Nat.toDigitsCore]
    by_cases h0 : n / 10 = 0
    · rw [if_pos h0]
      have hn : n < 10 := by omega
      simp [decodeDigits, digitVal_digitChar (n % 10) (Nat.mod_lt n (by norm_num))]
      omega
    · rw [if_neg h0]
      rw [toDigitsCore_shift 10 g (n / 10) [Nat.digitChar (n % 10)]]
      have hg : n / 10 < g := by omega
      have IH := ih (n / 10) a hg
      simp only [decodeDigits, List.foldl_append, List.foldl_cons,
        List.foldl_nil] at IH ⊢
      rw [digitVal_digitChar (n % 10) (Nat.mod_lt n (by norm_num)), IH,
        List.length_append, List.length_cons, List.length_nil, pow_succ,
        ← Nat.mul_assoc]
      generalize a * 10 ^ (Nat.toDigitsCore 10 g (n / 10) []).length = B
      omega

theorem toDigits_ten_inj (m n : Nat)
    (h : Nat.toDigits 10 m = Nat.toDigits 10 n) : m = n := by
  have hm := decodeDigits_toDigitsCore (m + 1) m 0 (Nat.lt_succ_self m)
  have hn := decodeDigits_toDigitsCore (n + 1) n 0 (Nat.lt_succ_self n)
  unfold Nat.toDigits at h
  rw [h] at hm
  simp only [Nat.zero_mul, Nat.zero_add] at hm hn
  exact hm.symm.trans hn

theorem nat_repr_data_inj (m n : Nat)
    (h : (Nat.repr m).data = (Nat.repr n).data) : m = n :=
  toDigits_ten_inj m n h

theorem dash_append_data (r : String) : ("-" ++ r).data = '-' :: r.data := by
  cases r with
  | mk l => rfl

theorem int_toString_ofNat (m : Nat) :
    toString (Int.ofNat m) = Nat.repr m := rfl

theorem int_toString_negSucc (m : Nat) :
    toString (Int.negSucc m) = "-" ++ Nat.repr (m + 1) := rfl

theorem int_toString_inj (s t : Int) (h : toString s = toString t) :
    s = t := by
  have hdata := congrArg String.data h
  cases s with
  | ofNat m =>
    cases t with
    | ofNat n =>
      rw [int_toString_ofNat, int_toString_ofNat] at hdata
      exact congrArg Int.ofNat (nat_repr_data_inj m n hdata)
    | negSucc n =>
      exfalso
      rw [int_toString_ofNat, int_toString_negSucc, dash_append_data] at hdata
      have hmem : '-' ∈ Nat.toDigits 10 m := by
        show '-' ∈ (Nat.repr m).data
        rw [hdata]
        exact List.mem_cons_self _ _
      rcases toDigitsCore_mem (m + 1) m [] '-' hmem with hin | ⟨d, hlt, heq⟩
      · simp at hin
      · exact digitChar_ne_dash d hlt heq.symm
  | negSucc m =>
    cases t with
    | ofNat n =>
      exfalso
      rw [int_toString_negSucc, int_toString_ofNat, dash_append_data] at hdata
      have hmem : '-' ∈ Nat.toDigits 10 n := by
        show '-' ∈ (Nat.repr n).data
        rw [← hdata]
        exact List.mem_cons_self _ _
      rcases toDigitsCore_mem (n + 1) n [] '-' hmem with hin | ⟨d, hlt, heq⟩
      · simp at hin
      · exact digitChar_ne_dash d hlt heq.symm
    | negSucc n =>
      rw [int_toString_negSucc, int_toString_negSucc, dash_append_data,
        dash_append_data] at hdata
      have h2 : (Nat.repr (m + 1)).data = (Nat.repr (n + 1)).data := by
        simpa using hdata
      have h3 := nat_repr_data_inj (m + 1) (n + 1) h2
      exact congrArg Int.negSucc (by omega)

theorem headerGet_headerSet_same (hs : List (String × String))
    (key value : String) : headerGet (headerSet hs key value) key = some value := by
  simp [headerGet, headerSet]

theorem applyOpts_append (l1 l2 : List ExecOpt) (req : HttpRequest)
    (cl : HttpClient) :
    applyOpts (l1 ++ l2) req cl =
      applyOpts l2 (applyOpts l1 req cl).1 (applyOpts l1 req cl).2 := by
  induction l1 generalizing req cl with
  | nil => rfl
  | cons o rest ih =>
    cases o with
    | reqOpt f => simpa [applyOpts] using ih (f req) cl
    | clientOpt g => simpa [applyOpts] using ih req (g cl)

/-! ## Claim theorems -/

/-- C3: on every error path of `Execute` (encoding failure,
request-construction failure, transport failure, HTTP-status failure,
decode failure, protocol error) the returned result pointer is nil: for
every environment, the returned pair never holds a result together with an
error. -/
theorem execute_error_keeps_result_nil {R : Type} (env : ExecEnv R)
    (ctx : Nat) (url : String) (opts : List ExecOpt) (world : World) :
    (Execute env ctx url opts world).2.1 = none ∨
    (Execute env ctx url opts world).2.2 = none := by
  cases henc : env.encodeResult with
  | error e => simp [Execute, henc]
  | ok body =>
    cases hnr : env.newRequestResult with
    | error e => simp [Execute, henc, hnr]
    | ok u =>
      cases u
      cases htr : env.transport
          (applyOpts opts (buildExecRequest ctx url body) world.defaultClient).2
          (applyOpts opts (buildExecRequest ctx url body) world.defaultClient).1 with
      | error e => simp [Execute, henc, hnr, htr]
      | ok resp =>
        by_cases hst : resp.statusCode < 200 ∨ resp.statusCode > 299
        · simp [Execute, henc, hnr, htr, hst]
        · cases hdec : env.decodeBody resp.body with
          | error e => simp [Execute, henc, hnr, htr, hst, hdec]
          | ok result =>
            cases herr : result.error with
            | some e2 => simp [Execute, henc, hnr, htr, hst, hdec, herr]
            | none => simp [Execute, henc, hnr, htr, hst, hdec, herr]

/-- C4: encoding the request envelope built by `CreateRequest` to the wire
format and decoding it back reproduces `method`, `params` and the protocol
version exactly, for every method, every params value and every clock
reading. -/
theorem createRequest_roundtrip (now : Int) (m : String) (p : Json) :
    (decodeRPCRequest (encodeRPCRequest (CreateRequest now m p))).map
      (fun r => (r.method, r.params, r.jsonrpc)) = some (m, p, Version) := by
  cases p <;> rfl

/-- C9 counterexample: two request builds whose millisecond clock readings
coincide — as happens for two builds issued in immediate succession —
receive the same correlation id, for both generators (`CreateRequest`,
millisecond integer; `NewRequest`, nanosecond string). -/
theorem createRequest_duplicate_id :
    (CreateRequest 1700000000000 "getblock" Json.null).id
      = (CreateRequest 1700000000000 "getbalance" (Json.num 1)).id ∧
    (NewRequest 1700000000000123456 "getblock" Json.null []).id
      = (NewRequest 1700000000000123456 "getbalance" (Json.num 1) []).id :=
  ⟨rfl, rfl⟩

/-- C9 amended: for both generators the correlation id is derived solely
from the clock reading — the millisecond integer itself in
`CreateRequest`, its decimal string (an injective encoding) in
`NewRequest` — so two builds receive distinct ids precisely when they
observe distinct clock readings; within one clock tick ids collide. -/
theorem request_id_distinct_iff_clock (t1 t2 : Int) (m1 m2 : String)
    (p1 p2 : Json) :
    (((CreateRequest t1 m1 p1).id ≠ (CreateRequest t2 m2 p2).id) ↔ t1 ≠ t2) ∧
    (((NewRequest t1 m1 p1 []).id ≠ (NewRequest t2 m2 p2 []).id) ↔ t1 ≠ t2) := by
  refine ⟨Iff.rfl, ?_, ?_⟩
  · intro h ht
    apply h
    subst ht
    rfl
  · intro ht h
    apply ht
    have hs : Json.str (toString t1) = Json.str (toString t2) := h
    exact int_toString_inj t1 t2 (Json.str.inj hs)

/-- C1: whenever the decoded response envelope has a populated protocol
error field, `Execute` returns a nil result together with that protocol
error itself (not wrapped further), whose user-visible message is exactly
`jsonrpc error: code=<code>, message=<message>` — regardless of what the
result field of the response contains (the envelope `r` is arbitrary). -/
theorem execute_protocol_error {R : Type} (env : ExecEnv R) (ctx : Nat)
    (url : String) (opts : List ExecOpt) (w : World) (resp : HttpResponse)
    (r : RPCResponse R) (e : RPCError) (body : String)
    (h1 : env.encodeResult = Except.ok body)
    (h2 : env.newRequestResult = Except.ok ())
    (h3 : ∀ c q, env.transport c q = Except.ok resp)
    (h4 : 200 ≤ resp.statusCode ∧ resp.statusCode ≤ 299)
    (h5 : env.decodeBody resp.body = Except.ok r)
    (h6 : r.error = some e) :
    (Execute env ctx url opts w).2 = (none, some (ExecError.rpc e)) ∧
    ((Execute env ctx url opts w).2.2).map ExecError.message
      = some ("jsonrpc error: code=" ++ toString e.code
          ++ ", message=" ++ e.message) := by
  have hst : ¬(resp.statusCode < 200 ∨ resp.statusCode > 299) := by omega
  simp [Execute, h1, h2, h3, h5, h6, hst, ExecError.message, RPCError.Error]

/-- C1 witness: a concrete server reply
`{"jsonrpc":"2.0","error":{"code":-32000,"message":"boom"},"id":1}` with
HTTP 200 makes `Execute` return a nil result and the protocol error with
message `jsonrpc error: code=-32000, message=boom`, even though the
decoded envelope also carries a result value. -/
theorem execute_protocol_error_witness :
    (Execute (R := Nat)
        { encodeResult := Except.ok "payload"
          newRequestResult := Except.ok ()
          transport := fun _ _ => Except.ok { statusCode := 200, body := "resp" }
          decodeBody := fun _ => Except.ok
            { jsonrpc := "2.0", result := 42
              error := some { code := -32000, message := "boom" }
              id := Json.num 1 } }
        0 "http://node" [] { defaultClient := { tag := 0, timeout := 0 } }).2
      = (none, some (ExecError.rpc { code := -32000, message := "boom" })) ∧
    ((Execute (R := Nat)
        { encodeResult := Except.ok "payload"
          newRequestResult := Except.ok ()
          transport := fun _ _ => Except.ok { statusCode := 200, body := "resp" }
          decodeBody := fun _ => Except.ok
            { jsonrpc := "2.0", result := 42
              error := some { code := -32000, message := "boom" }
              id := Json.num 1 } }
        0 "http://node" [] { defaultClient := { tag := 0, timeout := 0 } }).2.2).map
        ExecError.message
      = some ("jsonrpc error: code=" ++ toString (-32000 : Int)
          ++ ", message=" ++ "boom") :=
  execute_protocol_error _ 0 "http://node" [] _ _ _
    { code := -32000, message := "boom" } "payload"
    rfl rfl (fun _ _ => rfl) (by decide) rfl rfl

/-- C2: for every HTTP status outside [200, 299], `Execute` returns a nil
result and an HTTP-status error whose message is
`http status <code>` (so it contains the literal numeric status), and the
body is never decoded as a protocol envelope: the output is the same for
every decoder the environment could supply. -/
theorem execute_http_status_error {R : Type} (env : ExecEnv R) (ctx : Nat)
    (url : String) (opts : List ExecOpt) (w : World) (resp : HttpResponse)
    (body : String)
    (h1 : env.encodeResult = Except.ok body)
    (h2 : env.newRequestResult = Except.ok ())
    (h3 : ∀ c q, env.transport c q = Except.ok resp)
    (h4 : resp.statusCode < 200 ∨ resp.statusCode > 299) :
    Execute env ctx url opts w =
      ({ defaultClient :=
          (applyOpts opts (buildExecRequest ctx url body) w.defaultClient).2 },
        none, some (ExecError.httpStatus resp.statusCode)) ∧
    (ExecError.httpStatus resp.statusCode).message
      = "http status " ++ toString resp.statusCode ∧
    ∀ d, Execute { env with decodeBody := d } ctx url opts w
        = Execute env ctx url opts w := by
  have key : ∀ d : String → Except String (RPCResponse R),
      Execute { env with decodeBody := d } ctx url opts w =
      ({ defaultClient :=
          (applyOpts opts (buildExecRequest ctx url body) w.defaultClient).2 },
        none, some (ExecError.httpStatus resp.statusCode)) := by
    intro d
    simp [Execute, h1, h2, h3, h4]
  have base : Execute env ctx url opts w =
      ({ defaultClient :=
          (applyOpts opts (buildExecRequest ctx url body) w.defaultClient).2 },
        none, some (ExecError.httpStatus resp.statusCode)) := by
    simpa using key env.decodeBody
  refine ⟨base, rfl, fun d => ?_⟩
  rw [key d, base]

/-- C2 witness: a concrete HTTP 418 reply makes `Execute` return a nil
result and the error `http status 418`, with the decoder never consulted. -/
theorem execute_http_status_error_witness :
    Execute (R := Nat)
        { encodeResult := Except.ok "payload"
          newRequestResult := Except.ok ()
          transport := fun _ _ => Except.ok { statusCode := 418, body := "teapot" }
          decodeBody := fun _ => Except.error "never reached" }
        0 "http://node" [] { defaultClient := { tag := 0, timeout := 0 } }
      = ({ defaultClient :=
            (applyOpts [] (buildExecRequest 0 "http://node" "payload")
              { tag := 0, timeout := 0 }).2 },
          none, some (ExecError.httpStatus 418)) ∧
    (ExecError.httpStatus 418).message = "http status " ++ toString (418 : Int) ∧
    ∀ d, Execute (R := Nat)
        { encodeResult := Except.ok "payload"
          newRequestResult := Except.ok ()
          transport := fun _ _ => Except.ok { statusCode := 418, body := "teapot" }
          decodeBody := d }
        0 "http://node" [] { defaultClient := { tag := 0, timeout := 0 } }
      = Execute (R := Nat)
        { encodeResult := Except.ok "payload"
          newRequestResult := Except.ok ()
          transport := fun _ _ => Except.ok { statusCode := 418, body := "teapot" }
          decodeBody := fun _ => Except.error "never reached" }
        0 "http://node" [] { defaultClient := { tag := 0, timeout := 0 } } :=
  execute_http_status_error _ 0 "http://node" []
    { defaultClient := { tag := 0, timeout := 0 } }
    { statusCode := 418, body := "teapot" } "payload"
    rfl rfl (fun _ _ => rfl) (by decide)

/-- C5: a failing body encoding or a malformed (unparsable) endpoint URL
does not make `Prepare` raise: it returns a prepared call with a nil
transmission unit carrying a terminal error, and executing that prepared
call propagates the error wrapped with the stage marker
`execute prepared request` — for every transport environment `eenv`, so
nothing is ever sent. -/
theorem prepare_failure_flow {R : Type} (env : PrepareEnv) (url : String)
    (opts : List PrepareOpt) (eenv : PraparedExecEnv R)
    (client : Option HttpClient) (world : World) (e : String)
    (h : env.encodeResult = Except.error e ∨
         env.newRequestResult = Except.error e) :
    (Prepare env url opts).internal = none ∧
    ∃ m, (Prepare env url opts).err = some m ∧
      praparedExecute (Prepare env url opts) client world eenv
        = (none, some (ExecError.wrapped "execute prepared request" m)) := by
  cases henc : env.encodeResult with
  | error e2 =>
    refine ⟨?_, "encode request data: " ++ e2, ?_, ?_⟩ <;>
      simp [Prepare, praparedExecute, henc]
  | ok body =>
    have hnr : env.newRequestResult = Except.error e := by
      rcases h with h | h
      · rw [henc] at h
        exact absurd h (by simp)
      · exact h
    refine ⟨?_, "create http request: " ++ e, ?_, ?_⟩ <;>
      simp [Prepare, praparedExecute, henc, hnr]

/-- C5 witness: a concrete encoding failure is captured by `Prepare` and
surfaces only when the prepared call is executed, wrapped with the
`execute prepared request` stage marker. -/
theorem prepare_failure_flow_witness :
    (Prepare { encodeResult := Except.error "boom"
               newRequestResult := Except.ok () } "http://node" []).internal
      = none ∧
    ∃ m, (Prepare { encodeResult := Except.error "boom"
                    newRequestResult := Except.ok () } "http://node" []).err
        = some m ∧
      praparedExecute (R := Nat)
          (Prepare { encodeResult := Except.error "boom"
                     newRequestResult := Except.ok () } "http://node" [])
          none { defaultClient := { tag := 0, timeout := 0 } }
          { transport := fun _ _ => Except.ok { statusCode := 200, body := "" }
            decodeBody := fun _ => Except.error "unused" }
        = (none, some (ExecError.wrapped "execute prepared request" m)) :=
  prepare_failure_flow _ "http://node" [] _ none
    { defaultClient := { tag := 0, timeout := 0 } } "boom" (Or.inl rfl)

/-- C7: applying two request-scoped options that set the same header key,
in the order supplied, leaves the second option's value on the prepared
transmission unit. -/
theorem withHeader_last_wins (env : PrepareEnv) (url : String)
    (opts : List PrepareOpt) (k v1 v2 : String) (body : String)
    (h1 : env.encodeResult = Except.ok body)
    (h2 : env.newRequestResult = Except.ok ()) :
    ((Prepare env url (opts ++ [WithHeader k v1, WithHeader k v2])).internal).map
        (fun req => headerGet req.headers k)
      = some (some v2) := by
  simp [Prepare, h1, h2, List.foldl_append, WithHeader, headerGet_headerSet_same]

/-- C7 witness: setting `X-Auth` to `first` and then to `second` leaves
`second` on the prepared request. -/
theorem withHeader_last_wins_witness :
    ((Prepare { encodeResult := Except.ok "payload"
                newRequestResult := Except.ok () } "http://node"
        ([WithHeader "X-Auth" "first", WithHeader "X-Auth" "second"])).internal).map
        (fun req => headerGet req.headers "X-Auth")
      = some (some "second") :=
  withHeader_last_wins _ "http://node" [] "X-Auth" "first" "second" "payload"
    rfl rfl

/-- C8 counterexample: a successfully prepared request carries no
`Accept` header — `Prepare` (`part_006:46`) sets only
`Content-Type: application/json`, refuting the claim that the prepared
transmission unit has base header `Accept: application/json`. -/
theorem prepare_missing_accept_header :
    ((Prepare { encodeResult := Except.ok "payload"
                newRequestResult := Except.ok () } "http://node" []).internal).map
        (fun req => headerGet req.headers "Accept")
      = some none := by
  rfl

/-- C8 amended: a successfully prepared request is an HTTP POST to the
given endpoint with payload length equal to the encoded body's length and
base header `Content-Type: application/json` only, while the transmission
unit the `Execute` pipeline builds before applying options carries both
base headers `Content-Type: application/json` and
`Accept: application/json` and the same payload-length indicator. -/
theorem prepared_request_shape (env : PrepareEnv) (ctx : Nat)
    (url body : String)
    (h1 : env.encodeResult = Except.ok body)
    (h2 : env.newRequestResult = Except.ok ()) :
    (Prepare env url []).internal = some
      { method := "POST", url := url, body := body
        contentLength := (body.length : Int)
        headers := [("Content-Type", "application/json")]
        ctx := ctxBackground } ∧
    (buildExecRequest ctx url body).method = "POST" ∧
    (buildExecRequest ctx url body).url = url ∧
    (buildExecRequest ctx url body).contentLength = (body.length : Int) ∧
    headerGet (buildExecRequest ctx url body).headers "Content-Type"
      = some "application/json" ∧
    headerGet (buildExecRequest ctx url body).headers "Accept"
      = some "application/json" := by
  refine ⟨?_, rfl, rfl, rfl, ?_, ?_⟩
  · simp [Prepare, h1, h2, headerSet]
  · rfl
  · rfl

/-- C8 witness: the shapes above at a concrete body and endpoint. -/
theorem prepared_request_shape_witness :
    (Prepare { encodeResult := Except.ok "payload"
               newRequestResult := Except.ok () } "http://node" []).internal
      = some
      { method := "POST", url := "http://node", body := "payload"
        contentLength := ("payload".length : Int)
        headers := [("Content-Type", "application/json")]
        ctx := ctxBackground } ∧
    (buildExecRequest 0 "http://node" "payload").method = "POST" ∧
    (buildExecRequest 0 "http://node" "payload").url = "http://node" ∧
    (buildExecRequest 0 "http://node" "payload").contentLength
      = ("payload".length : Int) ∧
    headerGet (buildExecRequest 0 "http://node" "payload").headers
      "Content-Type" = some "application/json" ∧
    headerGet (buildExecRequest 0 "http://node" "payload").headers
      "Accept" = some "application/json" :=
  prepared_request_shape _ 0 "http://node" "payload" rfl rfl

/-- C6: `UseClient` and `UseContext` (`part_001:20-24`, `part_001:32-36`)
are dead stores — each assigns only to its own pointer parameter — so the
option loop leaves both the request and the client untouched, and the
transmission still goes through the shared default client with the
request's original context: at the failing input, `Execute` with
`UseClient` of a distinct custom client and `UseContext 7` hands the
transport the default client (tag 0) and a request whose context is still
`ctxBackground`, not the supplied one. -/
theorem useClient_useContext_dead_store :
    applyOpts [UseClient { tag := 1, timeout := 5 }, UseContext 7]
        (buildExecRequest ctxBackground "http://node" "payload")
        { tag := 0, timeout := 0 }
      = (buildExecRequest ctxBackground "http://node" "payload",
          { tag := 0, timeout := 0 }) ∧
    ({ tag := 1, timeout := 5 } : HttpClient) ≠ { tag := 0, timeout := 0 } ∧
    (buildExecRequest ctxBackground "http://node" "payload").ctx ≠ 7 ∧
    (Execute (R := Nat)
        { encodeResult := Except.ok "payload"
          newRequestResult := Except.ok ()
          transport := fun c q =>
            Except.error (toString c.tag ++ "/" ++ toString q.ctx)
          decodeBody := fun _ => Except.error "unused" }
        ctxBackground "http://node"
        [UseClient { tag := 1, timeout := 5 }, UseContext 7]
        { defaultClient := { tag := 0, timeout := 0 } }).2.2
      = some (ExecError.wrapped "execute req" "0/0") :=
  ⟨rfl, by decide, by decide, rfl⟩

/-- C10: when no transport override is given, every client-scoped option
is applied to the process-wide shared default client itself, not to a
per-call copy: after the call, the world's default client is exactly the
fold of the supplied options over it (whatever the transport and decoder
did), so a timeout set by an option persists after the call returns and
is visible to every later call reading the shared default. -/
theorem execute_applies_client_options_to_shared_default {R : Type}
    (env : ExecEnv R) (ctx : Nat) (url : String) (opts : List ExecOpt)
    (w : World) (body : String) (t : Int)
    (h1 : env.encodeResult = Except.ok body)
    (h2 : env.newRequestResult = Except.ok ()) :
    ((Execute env ctx url opts w).1).defaultClient
      = (applyOpts opts (buildExecRequest ctx url body) w.defaultClient).2 ∧
    ((Execute env ctx url
        (opts ++ [ExecOpt.clientOpt (fun c => { c with timeout := t })])
        w).1).defaultClient.timeout = t := by
  have hw : ∀ opts2 : List ExecOpt, (Execute env ctx url opts2 w).1 =
      { defaultClient :=
          (applyOpts opts2 (buildExecRequest ctx url body) w.defaultClient).2 } := by
    intro opts2
    cases htr : env.transport
        (applyOpts opts2 (buildExecRequest ctx url body) w.defaultClient).2
        (applyOpts opts2 (buildExecRequest ctx url body) w.defaultClient).1 with
    | error e => simp [Execute, h1, h2, htr]
    | ok resp =>
      by_cases hst : resp.statusCode < 200 ∨ resp.statusCode > 299
      · simp [Execute, h1, h2, htr, hst]
      · cases hdec : env.decodeBody resp.body with
        | error e => simp [Execute, h1, h2, htr, hst, hdec]
        | ok result =>
          cases herr : result.error with
          | some e2 => simp [Execute, h1, h2, htr, hst, hdec, herr]
          | none => simp [Execute, h1, h2, htr, hst, hdec, herr]
  refine ⟨by rw [hw opts], ?_⟩
  rw [hw (opts ++ [ExecOpt.clientOpt (fun c => { c with timeout := t })])]
  simp [applyOpts_append, applyOpts]

/-- C10 witness: a client-scoped option setting a 123-unit timeout leaves
the shared default client's timeout at 123 after the call returns
(mirroring `TestExecuteClientOptions`). -/
theorem execute_applies_client_options_witness :
    ((Execute (R := Nat)
        { encodeResult := Except.ok "payload"
          newRequestResult := Except.ok ()
          transport := fun _ _ => Except.ok { statusCode := 200, body := "" }
          decodeBody := fun _ => Except.ok
            { jsonrpc := "2.0", result := 0, error := none, id := Json.num 1 } }
        0 "http://node" [] { defaultClient := { tag := 0, timeout := 0 } }).1).defaultClient
      = (applyOpts [] (buildExecRequest 0 "http://node" "payload")
          { tag := 0, timeout := 0 }).2 ∧
    ((Execute (R := Nat)
        { encodeResult := Except.ok "payload"
          newRequestResult := Except.ok ()
          transport := fun _ _ => Except.ok { statusCode := 200, body := "" }
          decodeBody := fun _ => Except.ok
            { jsonrpc := "2.0", result := 0, error := none, id := Json.num 1 } }
        0 "http://node"
        ([] ++ [ExecOpt.clientOpt (fun c => { c with timeout := 123 })])
        { defaultClient := { tag := 0, timeout := 0 } }).1).defaultClient.timeout
      = 123 :=
  execute_applies_client_options_to_shared_default _ 0 "http://node" []
    { defaultClient := { tag := 0, timeout := 0 } } "payload" 123 rfl rfl

end Jsonrpc
